import Mathlib

/-!
Verification of the ICS (iCalendar) encoder of the calendar-photo converter.

The encoder lives in the `CalendarPhotoConverter` component:

* `formatDateToICS(dateStr)` builds `new Date(dateStr)`, takes `toISOString()`,
  strips `-` and `:`, drops everything from the first `.` on, and appends `"Z"`.
  When the date string does not parse, `toISOString` raises, which we model as
  an `Except` error (`invalidTimestamp`).
* `generateICS()` folds the event list into a `VCALENDAR` document, emitting one
  `VEVENT` block per event with `UID`/`DTSTAMP`/`DTSTART`/`DTEND`/`SUMMARY` lines
  and optional `LOCATION`/`DESCRIPTION` lines, joined with bare `"\n"` and closed
  by `END:VCALENDAR` with no trailing newline.

JavaScript date parsing (`new Date(string)`) is a host-environment primitive, so
the embedding is parametric in a `parse : String → Option DateTime` function; a
concrete `parseISO` parser for the strict `YYYY-MM-DDTHH:MM:SS[.mmm][Z]` shape is
provided for evaluating the development on closed inputs.
-/

namespace ICS

/-- A point in time as the UTC field vector a JavaScript `Date` exposes through
`toISOString`: year, month (1-based), day, hour, minute, second, millisecond. -/
structure DateTime where
  year : Nat
  month : Nat
  day : Nat
  hour : Nat
  minute : Nat
  second : Nat
  ms : Nat
deriving DecidableEq

/-- Two-digit zero-padded decimal rendering, as used by `toISOString` fields. -/
def pad2 (n : Nat) : String :=
  ⟨[Nat.digitChar (n / 10 % 10), Nat.digitChar (n % 10)]⟩

/-- Three-digit zero-padded decimal rendering (milliseconds). -/
def pad3 (n : Nat) : String :=
  ⟨[Nat.digitChar (n / 100 % 10), Nat.digitChar (n / 10 % 10), Nat.digitChar (n % 10)]⟩

/-- Four-digit zero-padded decimal rendering (years 0–9999). -/
def pad4 (n : Nat) : String :=
  ⟨[Nat.digitChar (n / 1000 % 10), Nat.digitChar (n / 100 % 10),
    Nat.digitChar (n / 10 % 10), Nat.digitChar (n % 10)]⟩

/-- Six-digit zero-padded decimal rendering (expanded years). -/
def pad6 (n : Nat) : String :=
  ⟨[Nat.digitChar (n / 100000 % 10), Nat.digitChar (n / 10000 % 10),
    Nat.digitChar (n / 1000 % 10), Nat.digitChar (n / 100 % 10),
    Nat.digitChar (n / 10 % 10), Nat.digitChar (n % 10)]⟩

/-- Model of JavaScript `Date.prototype.toISOString`: renders the UTC fields as
`YYYY-MM-DDTHH:MM:SS.mmmZ`, switching to the expanded `+YYYYYY` year form when
the year does not fit in four digits. -/
def toISOString (d : DateTime) : String :=
  (if d.year ≤ 9999 then pad4 d.year else "+" ++ pad6 d.year) ++ "-" ++
    pad2 d.month ++ "-" ++ pad2 d.day ++ "T" ++ pad2 d.hour ++ ":" ++
    pad2 d.minute ++ ":" ++ pad2 d.second ++ "." ++ pad3 d.ms ++ "Z"

/-- The one failure mode of the encoder: a `start`/`end` value whose parse is an
invalid date, on which `toISOString` raises a `RangeError`. -/
inductive ICSError where
  | invalidTimestamp
deriving DecidableEq

/-- Characters surviving `.replace(/[-:]/g, "")`. -/
def notDashColon (c : Char) : Bool := !(c == '-' || c == ':')

/-- Characters before the first `.`, as kept by `.split(".")[0]`. -/
def notDot (c : Char) : Bool := !(c == '.')

/-- The pure value computed by `formatDateToICS` on a successfully parsed date:
`date.toISOString().replace(/[-:]/g, "").split(".")[0] + "Z"`. -/
def stripISO (d : DateTime) : String :=
  ⟨((toISOString d).data.filter notDashColon).takeWhile notDot⟩ ++ "Z"

/-- `formatDateToICS` from the source: parse the date string via the host
environment, then strip the ISO rendering; an unparseable string raises. -/
def formatDateToICS (parse : String → Option DateTime) (dateStr : String) :
    Except ICSError String :=
  match parse dateStr with
  | none => .error .invalidTimestamp
  | some date => .ok (stripISO date)

/-- The `CalendarEvent` interface of the source: required title/start/end,
optional location and description. -/
structure CalendarEvent where
  title : String
  start : String
  «end» : String
  location : Option String
  description : Option String
deriving DecidableEq

/-- JavaScript truthiness of an optional string field (`if (event.location)`):
`undefined` and the empty string are falsy. -/
def truthy : Option String → Bool
  | none => false
  | some s => !(s == "")

/-- The `UID` line emitted for the event at 0-based position `idx`:
`` UID:${Date.now()}-${index}@calendar-converter ``. -/
def uidLine (nowMs idx : Nat) : String :=
  "UID:" ++ Nat.repr nowMs ++ "-" ++ Nat.repr idx ++ "@calendar-converter"

/-- The string appended to `icsContent` by one iteration of the
`events.forEach` loop in `generateICS`. -/
def eventBlockStr (parse : String → Option DateTime) (nowMs : Nat)
    (now : DateTime) (idx : Nat) (ev : CalendarEvent) : Except ICSError String := do
  let dtstamp ← formatDateToICS parse (toISOString now)
  let dtstart ← formatDateToICS parse ev.start
  let dtend ← formatDateToICS parse ev.«end»
  .ok ("BEGIN:VEVENT\n" ++
    (uidLine nowMs idx ++ "\n") ++
    ("DTSTAMP:" ++ dtstamp ++ "\n") ++
    ("DTSTART:" ++ dtstart ++ "\n") ++
    ("DTEND:" ++ dtend ++ "\n") ++
    ("SUMMARY:" ++ ev.title ++ "\n") ++
    (if truthy ev.location then "LOCATION:" ++ ev.location.getD "" ++ "\n" else "") ++
    (if truthy ev.description then "DESCRIPTION:" ++ ev.description.getD "" ++ "\n" else "") ++
    "END:VEVENT\n")

/-- The body accumulated by the `events.forEach((event, index) => ...)` loop,
starting at position `idx`. -/
def genBody (parse : String → Option DateTime) (nowMs : Nat) (now : DateTime) :
    List CalendarEvent → Nat → Except ICSError String
  | [], _ => .ok ""
  | ev :: rest, idx => do
    let blk ← eventBlockStr parse nowMs now idx ev
    let r ← genBody parse nowMs now rest (idx + 1)
    .ok (blk ++ r)

/-- The calendar header the source starts `icsContent` with. -/
def headerStr : String :=
  "BEGIN:VCALENDAR\nVERSION:2.0\nPRODID:-//Calendar Photo Converter//EN\n"

/-- `generateICS` from the source: header, one block per event (in order, with
0-based indices), then `END:VCALENDAR` with no trailing newline.  The host
date parser and the two clock readings (`Date.now()` in milliseconds for the
`UID`s, the current instant for `DTSTAMP`) are explicit inputs. -/
def generateICS (parse : String → Option DateTime) (events : List CalendarEvent)
    (nowMs : Nat) (now : DateTime) : Except ICSError String := do
  let body ← genBody parse nowMs now events 0
  .ok (headerStr ++ body ++ "END:VCALENDAR")

/-- Decimal digit value of a character, if it is one. -/
def readDigit (c : Char) : Option Nat :=
  if c.isDigit then some (c.toNat - 48) else none

/-- Two decimal digits read as a number. -/
def read2 (a b : Char) : Option Nat := do
  let x ← readDigit a
  let y ← readDigit b
  some (x * 10 + y)

/-- A concrete date parser for the strict `YYYY-MM-DDTHH:MM:SS[.mmm][Z]` shape
(the shape the upstream prompt requests and the shape `toISOString` emits),
used to run the parametric development on closed inputs.  Out-of-range field
values are rejected, as JavaScript rejects them for ISO date-time strings. -/
def parseISO (s : String) : Option DateTime := do
  match s.data with
  | y1 :: y2 :: y3 :: y4 :: '-' :: o1 :: o2 :: '-' :: d1 :: d2 :: 'T' ::
      h1 :: h2 :: ':' :: i1 :: i2 :: ':' :: c1 :: c2 :: rest =>
    let yh ← read2 y1 y2
    let yl ← read2 y3 y4
    let mo ← read2 o1 o2
    let dd ← read2 d1 d2
    let hh ← read2 h1 h2
    let mi ← read2 i1 i2
    let ss ← read2 c1 c2
    let ms ← (match rest with
      | [] => some 0
      | ['Z'] => some 0
      | ['.', m1, m2, m3, 'Z'] => do
        let a ← readDigit m1
        let b ← readDigit m2
        let c ← readDigit m3
        some ((a * 10 + b) * 10 + c)
      | _ => none)
    if 1 ≤ mo ∧ mo ≤ 12 ∧ 1 ≤ dd ∧ dd ≤ 31 ∧ hh ≤ 23 ∧ mi ≤ 59 ∧ ss ≤ 59 then
      some ⟨yh * 100 + yl, mo, dd, hh, mi, ss, ms⟩
    else
      none
  | _ => none

example : parseISO "2025-03-10T09:00:00" = some ⟨2025, 3, 10, 9, 0, 0, 0⟩ := by decide

example :
    formatDateToICS parseISO "2025-03-10T09:00:00" = .ok "20250310T090000Z" := rfl

/-! ### Line structure of the generated document -/

/-- Split a character list at every occurrence of `c` (the separator is
consumed; `n + 1` separators yield `n + 2` chunks). -/
def splitOnChar (c : Char) : List Char → List (List Char)
  | [] => [[]]
  | x :: xs =>
    match splitOnChar c xs with
    | [] => [[]]
    | y :: ys => if x = c then [] :: y :: ys else (x :: y) :: ys

/-- The lines of a document: its character data split at every `'\n'`. -/
def docLines (s : String) : List String :=
  (splitOnChar '\n' s.data).map fun l => ⟨l⟩

/-- Join lines by terminating each with `'\n'`, in front of a tail. -/
def joinNLd : List (List Char) → List Char → List Char
  | [], t => t
  | l :: ls, t => l ++ '\n' :: joinNLd ls t

/-- Join lines with a bare `"\n"` separator — no terminator after the last
line. -/
def sepByNL : List String → String
  | [] => ""
  | [l] => l
  | l :: ls => l ++ "\n" ++ sepByNL ls

/-- The value emitted for a `DTSTAMP`/`DTSTART`/`DTEND` field, with a dummy on
parse failure (the encoder errors out in that case, so the dummy is never the
value of an emitted line). -/
def fmtD (parse : String → Option DateTime) (s : String) : String :=
  match parse s with
  | some d => stripISO d
  | none => ""

/-- The lines of the `VEVENT` block emitted for event `ev` at position `idx`. -/
def blockLines (parse : String → Option DateTime) (nowMs : Nat) (now : DateTime)
    (idx : Nat) (ev : CalendarEvent) : List String :=
  ["BEGIN:VEVENT",
   uidLine nowMs idx,
   "DTSTAMP:" ++ fmtD parse (toISOString now),
   "DTSTART:" ++ fmtD parse ev.start,
   "DTEND:" ++ fmtD parse ev.«end»,
   "SUMMARY:" ++ ev.title] ++
  (if truthy ev.location then ["LOCATION:" ++ ev.location.getD ""] else []) ++
  (if truthy ev.description then ["DESCRIPTION:" ++ ev.description.getD ""] else []) ++
  ["END:VEVENT"]

/-- The lines of all `VEVENT` blocks for the events from position `idx` on. -/
def emitLines (parse : String → Option DateTime) (nowMs : Nat) (now : DateTime) :
    List CalendarEvent → Nat → List String
  | [], _ => []
  | ev :: rest, idx =>
    blockLines parse nowMs now idx ev ++ emitLines parse nowMs now rest (idx + 1)

/-- The three header lines of every generated document. -/
def headerLines : List String :=
  ["BEGIN:VCALENDAR", "VERSION:2.0", "PRODID:-//Calendar Photo Converter//EN"]

/-- Decidable form of the `^\d{8}T\d{6}Z$` pattern of §8 of the specification:
eight digits, a literal `T`, six digits, a literal `Z`, nothing else. -/
def matchesTS (s : String) : Bool :=
  match s.data with
  | [a1, a2, a3, a4, a5, a6, a7, a8, t, b1, b2, b3, b4, b5, b6, z] =>
    [a1, a2, a3, a4, a5, a6, a7, a8, b1, b2, b3, b4, b5, b6].all Char.isDigit &&
      t == 'T' && z == 'Z'
  | _ => false

example : matchesTS "20250310T090000Z" = true := by decide

/-! ### A minimal decoder

Modelled from the spec: the repository ships no ICS decoder; §8 of the
specification tests the round-trip through "a minimal parser reading
`SUMMARY`, `DTSTART`, `DTEND`, `LOCATION`, `DESCRIPTION`".  The decoder below
reads exactly those property lines (plus the `BEGIN:VEVENT`/`END:VEVENT`
delimiters), ignoring every other line. -/

/-- Remainder of `s` after the expected prefix `p`, when `p` is a prefix. -/
def dropPre : List Char → List Char → Option (List Char)
  | [], s => some s
  | _ :: _, [] => none
  | p :: ps, c :: cs => if p = c then dropPre ps cs else none

/-- The event record a decoded block starts from. -/
def blankEv : CalendarEvent := ⟨"", "", "", none, none⟩

/-- State of the line-by-line decoder: the block being read, and the events
decoded so far. -/
structure DecodeState where
  cur : Option CalendarEvent
  acc : List CalendarEvent
deriving DecidableEq

/-- Modelled from the spec: one step of the minimal decoder.  `BEGIN:VEVENT`
opens a fresh record, `END:VEVENT` commits it, and inside a block the five
property prefixes set the corresponding field; all other lines are ignored. -/
def decodeLine (st : DecodeState) (line : List Char) : DecodeState :=
  if line = "BEGIN:VEVENT".data then ⟨some blankEv, st.acc⟩
  else if line = "END:VEVENT".data then
    match st.cur with
    | some ev => ⟨none, st.acc ++ [ev]⟩
    | none => st
  else
    match st.cur with
    | none => st
    | some ev =>
      match dropPre "SUMMARY:".data line with
      | some r => ⟨some { ev with title := ⟨r⟩ }, st.acc⟩
      | none =>
        match dropPre "DTSTART:".data line with
        | some r => ⟨some { ev with start := ⟨r⟩ }, st.acc⟩
        | none =>
          match dropPre "DTEND:".data line with
          | some r => ⟨some { ev with «end» := ⟨r⟩ }, st.acc⟩
          | none =>
            match dropPre "LOCATION:".data line with
            | some r => ⟨some { ev with location := some ⟨r⟩ }, st.acc⟩
            | none =>
              match dropPre "DESCRIPTION:".data line with
              | some r => ⟨some { ev with description := some ⟨r⟩ }, st.acc⟩
              | none => st

/-- Modelled from the spec: the minimal decoder of §8, reading the document
line by line. -/
def decodeICS (s : String) : List CalendarEvent :=
  ((splitOnChar '\n' s.data).foldl decodeLine ⟨none, []⟩).acc

/-- The event record the round-trip reconstructs: every field verbatim except
the two times, which come back normalized to their UTC rendering. -/
def normEvent (parse : String → Option DateTime) (ev : CalendarEvent) :
    CalendarEvent :=
  { ev with start := fmtD parse ev.start, «end» := fmtD parse ev.«end» }

/-! ### Decimal renderings: digit characters and injectivity of `Nat.repr` -/

/-- Reference rendering of a natural number as decimal digit characters. -/
def myDigits (n : Nat) : List Char :=
  if _h : n < 10 then [Nat.digitChar n]
  else myDigits (n / 10) ++ [Nat.digitChar (n % 10)]
termination_by n
decreasing_by omega

/-- Value of a decimal digit string. -/
def digitsVal (l : List Char) : Nat :=
  l.foldl (fun a c => a * 10 + (c.toNat - 48)) 0

theorem digitChar_isDigit_of_lt {k : Nat} (h : k < 10) :
    (Nat.digitChar k).isDigit = true := by
  interval_cases k <;> decide

theorem digitChar_mod10_isDigit (k : Nat) :
    (Nat.digitChar (k % 10)).isDigit = true :=
  digitChar_isDigit_of_lt (Nat.mod_lt _ (by decide))

theorem digitChar_toNat_of_lt {k : Nat} (h : k < 10) :
    (Nat.digitChar k).toNat = 48 + k := by
  interval_cases k <;> decide

theorem ne_of_isDigit {c x : Char} (h : c.isDigit = true) (hx : x.isDigit = false) :
    c ≠ x := by
  intro he
  rw [he, hx] at h
  cases h

theorem toDigitsCore_acc : ∀ (fuel n : Nat) (ds : List Char),
    Nat.toDigitsCore 10 fuel n ds = Nat.toDigitsCore 10 fuel n [] ++ ds
  | 0, _, _ => by simp [Nat.toDigitsCore]
  | fuel + 1, n, ds => by
    simp only [Nat.toDigitsCore]
    by_cases h : n / 10 = 0
    · simp [h]
    · rw [if_neg h, if_neg h,
        toDigitsCore_acc fuel (n / 10) (Nat.digitChar (n % 10) :: ds),
        toDigitsCore_acc fuel (n / 10) [Nat.digitChar (n % 10)]]
      simp

theorem toDigitsCore_eq_myDigits : ∀ (fuel n : Nat), n < fuel →
    Nat.toDigitsCore 10 fuel n [] = myDigits n
  | 0, _, h => absurd h (Nat.not_lt_zero _)
  | fuel + 1, n, h => by
    simp only [Nat.toDigitsCore]
    by_cases h0 : n / 10 = 0
    · have hn : n < 10 := by omega
      rw [if_pos h0, myDigits, dif_pos hn, Nat.mod_eq_of_lt hn]
    · have hlt : n / 10 < fuel := by omega
      have hn : ¬ n < 10 := by omega
      rw [if_neg h0, toDigitsCore_acc, toDigitsCore_eq_myDigits fuel (n / 10) hlt]
      conv_rhs => rw [myDigits]
      rw [dif_neg hn]

theorem repr_eq_myDigits (n : Nat) : Nat.repr n = ⟨myDigits n⟩ := by
  show (Nat.toDigits 10 n).asString = _
  rw [Nat.toDigits, toDigitsCore_eq_myDigits (n + 1) n (Nat.lt_succ_self n)]
  rfl

theorem digitsVal_myDigits (n : Nat) : digitsVal (myDigits n) = n := by
  induction n using Nat.strong_induction_on with
  | _ n ih =>
    by_cases h : n < 10
    · rw [myDigits, dif_pos h]
      simp [digitsVal, digitChar_toNat_of_lt h]
    · rw [myDigits, dif_neg h]
      have h10 : 0 < n := by omega
      have := ih (n / 10) (Nat.div_lt_self h10 (by decide))
      simp only [digitsVal, List.foldl_append, List.foldl_cons, List.foldl_nil] at *
      rw [this, digitChar_toNat_of_lt (Nat.mod_lt _ (by decide))]
      omega

theorem myDigits_inj {m n : Nat} (h : myDigits m = myDigits n) : m = n := by
  rw [← digitsVal_myDigits m, ← digitsVal_myDigits n, h]

theorem reprNat_inj {m n : Nat} (h : Nat.repr m = Nat.repr n) : m = n := by
  rw [repr_eq_myDigits, repr_eq_myDigits] at h
  exact myDigits_inj (congrArg String.data h)

theorem myDigits_all_digit (n : Nat) : ∀ c ∈ myDigits n, c.isDigit = true := by
  induction n using Nat.strong_induction_on with
  | _ n ih =>
    by_cases h : n < 10
    · rw [myDigits, dif_pos h]
      intro c hc
      simp only [List.mem_singleton] at hc
      subst hc
      exact digitChar_isDigit_of_lt h
    · rw [myDigits, dif_neg h]
      intro c hc
      rcases List.mem_append.mp hc with h1 | h1
      · exact ih (n / 10) (Nat.div_lt_self (by omega) (by decide)) c h1
      · simp only [List.mem_singleton] at h1
        subst h1
        exact digitChar_mod10_isDigit n

theorem repr_noNL (n : Nat) : '\n' ∉ (Nat.repr n).data := by
  rw [repr_eq_myDigits]
  intro h
  have := myDigits_all_digit n '\n' h
  cases this

/-! ### Character-level facts about the ISO rendering -/

theorem data_mk (l : List Char) : (String.mk l).data = l := rfl

theorem mk_data (s : String) : String.mk s.data = s := rfl

theorem data_dash : "-".data = ['-'] := rfl

theorem data_colon : ":".data = [':'] := rfl

theorem data_tee : "T".data = ['T'] := rfl

theorem data_dot : ".".data = ['.'] := rfl

theorem data_zee : "Z".data = ['Z'] := rfl

theorem data_plus : "+".data = ['+'] := rfl

theorem data_nl : "\n".data = ['\n'] := rfl

theorem notDashColon_of_digit {c : Char} (h : c.isDigit = true) :
    notDashColon c = true := by
  have h1 : c ≠ '-' := ne_of_isDigit h (by decide)
  have h2 : c ≠ ':' := ne_of_isDigit h (by decide)
  simp [notDashColon, h1, h2]

theorem notDot_of_digit {c : Char} (h : c.isDigit = true) : notDot c = true := by
  have h1 : c ≠ '.' := ne_of_isDigit h (by decide)
  simp [notDot, h1]

theorem pad2_all_digit (n : Nat) : ∀ c ∈ (pad2 n).data, c.isDigit = true := by
  intro c hc
  simp only [pad2, data_mk, List.mem_cons, List.not_mem_nil, or_false] at hc
  rcases hc with rfl | rfl <;> exact digitChar_mod10_isDigit _

theorem pad3_all_digit (n : Nat) : ∀ c ∈ (pad3 n).data, c.isDigit = true := by
  intro c hc
  simp only [pad3, data_mk, List.mem_cons, List.not_mem_nil, or_false] at hc
  rcases hc with rfl | rfl | rfl <;> exact digitChar_mod10_isDigit _

theorem pad4_all_digit (n : Nat) : ∀ c ∈ (pad4 n).data, c.isDigit = true := by
  intro c hc
  simp only [pad4, data_mk, List.mem_cons, List.not_mem_nil, or_false] at hc
  rcases hc with rfl | rfl | rfl | rfl <;> exact digitChar_mod10_isDigit _

theorem pad6_all_digit (n : Nat) : ∀ c ∈ (pad6 n).data, c.isDigit = true := by
  intro c hc
  simp only [pad6, data_mk, List.mem_cons, List.not_mem_nil, or_false] at hc
  rcases hc with rfl | rfl | rfl | rfl | rfl | rfl <;> exact digitChar_mod10_isDigit _

theorem noNL_of_all_digit {l : List Char} (h : ∀ c ∈ l, c.isDigit = true) :
    '\n' ∉ l :=
  fun hm => absurd (h _ hm) (by decide)

theorem toISO_noNL (d : DateTime) : '\n' ∉ (toISOString d).data := by
  intro hc
  have hp2 := fun n => noNL_of_all_digit (pad2_all_digit n)
  have hp3 := noNL_of_all_digit (pad3_all_digit d.ms)
  have hp4 := noNL_of_all_digit (pad4_all_digit d.year)
  have hp6 := noNL_of_all_digit (pad6_all_digit d.year)
  unfold toISOString at hc
  by_cases hy : d.year ≤ 9999
  · rw [if_pos hy] at hc
    simp +decide [String.data_append, data_dash, data_colon, data_tee, data_dot,
      data_zee, List.mem_append, hp2, hp3, hp4] at hc
  · rw [if_neg hy] at hc
    simp +decide [String.data_append, data_dash, data_colon, data_tee, data_dot,
      data_zee, data_plus, List.mem_append, hp2, hp3, hp6] at hc

theorem stripISO_noNL (d : DateTime) : '\n' ∉ (stripISO d).data := by
  intro hc
  simp only [stripISO, String.data_append, data_mk, data_zee, List.mem_append] at hc
  rcases hc with h | h
  · exact toISO_noNL d ((List.mem_filter.mp (List.takeWhile_subset _ h)).1)
  · simp at h

/-- For a four-digit year, the stripped rendering is literally eight digits,
`T`, six digits, `Z`. -/
theorem stripISO_data {d : DateTime} (hy : d.year ≤ 9999) :
    (stripISO d).data =
      [Nat.digitChar (d.year / 1000 % 10), Nat.digitChar (d.year / 100 % 10),
       Nat.digitChar (d.year / 10 % 10), Nat.digitChar (d.year % 10),
       Nat.digitChar (d.month / 10 % 10), Nat.digitChar (d.month % 10),
       Nat.digitChar (d.day / 10 % 10), Nat.digitChar (d.day % 10), 'T',
       Nat.digitChar (d.hour / 10 % 10), Nat.digitChar (d.hour % 10),
       Nat.digitChar (d.minute / 10 % 10), Nat.digitChar (d.minute % 10),
       Nat.digitChar (d.second / 10 % 10), Nat.digitChar (d.second % 10), 'Z'] := by
  have fdig : ∀ c : Char, c.isDigit = true → notDashColon c = true :=
    fun c hc => notDashColon_of_digit hc
  have tdig : ∀ c : Char, c.isDigit = true → notDot c = true :=
    fun c hc => notDot_of_digit hc
  have f2 : ∀ n, (pad2 n).data.filter notDashColon = (pad2 n).data :=
    fun n => List.filter_eq_self.mpr fun c hc => fdig c (pad2_all_digit n c hc)
  have f3 : (pad3 d.ms).data.filter notDashColon = (pad3 d.ms).data :=
    List.filter_eq_self.mpr fun c hc => fdig c (pad3_all_digit _ c hc)
  have f4 : (pad4 d.year).data.filter notDashColon = (pad4 d.year).data :=
    List.filter_eq_self.mpr fun c hc => fdig c (pad4_all_digit _ c hc)
  simp only [stripISO, toISOString, if_pos hy, String.data_append, data_mk,
    data_dash, data_colon, data_tee, data_dot, data_zee,
    List.filter_append, f2, f3, f4]
  rw [show List.filter notDashColon ['-'] = [] from by decide,
    show List.filter notDashColon [':'] = [] from by decide,
    show List.filter notDashColon ['T'] = ['T'] from by decide,
    show List.filter notDashColon ['.'] = ['.'] from by decide,
    show List.filter notDashColon ['Z'] = ['Z'] from by decide]
  simp only [List.append_nil, List.nil_append, List.append_assoc, List.cons_append,
    List.singleton_append]
  have t2 : ∀ n, ∀ a ∈ (pad2 n).data, notDot a = true :=
    fun n c hc => tdig c (pad2_all_digit n c hc)
  have t4 : ∀ a ∈ (pad4 d.year).data, notDot a = true :=
    fun c hc => tdig c (pad4_all_digit _ c hc)
  rw [List.takeWhile_append_of_pos t4, List.takeWhile_append_of_pos (t2 d.month),
    List.takeWhile_append_of_pos (t2 d.day),
    List.takeWhile_cons_of_pos (show notDot 'T' = true from by decide),
    List.takeWhile_append_of_pos (t2 d.hour), List.takeWhile_append_of_pos (t2 d.minute),
    List.takeWhile_append_of_pos (t2 d.second),
    List.takeWhile_cons_of_neg (show ¬ notDot '.' = true from by decide)]
  simp [pad2, pad4]

/-- The stripped rendering of any four-digit-year instant matches
`^\d{8}T\d{6}Z$`. -/
theorem matchesTS_stripISO {d : DateTime} (hy : d.year ≤ 9999) :
    matchesTS (stripISO d) = true := by
  have hs : stripISO d = ⟨_⟩ := String.ext (stripISO_data hy)
  rw [hs]
  simp [matchesTS, digitChar_mod10_isDigit]

theorem formatDateToICS_ok {parse : String → Option DateTime} {s : String}
    {d : DateTime} (h : parse s = some d) :
    formatDateToICS parse s = .ok (stripISO d) := by
  simp [formatDateToICS, h]

theorem formatDateToICS_err {parse : String → Option DateTime} {s : String}
    (h : parse s = none) :
    formatDateToICS parse s = .error .invalidTimestamp := by
  simp [formatDateToICS, h]

theorem fmtD_eq {parse : String → Option DateTime} {s : String} {d : DateTime}
    (h : parse s = some d) : fmtD parse s = stripISO d := by
  simp [fmtD, h]

/-! ### Joining and splitting lines -/

theorem joinNLd_append (L1 L2 : List (List Char)) (t : List Char) :
    joinNLd (L1 ++ L2) t = joinNLd L1 (joinNLd L2 t) := by
  induction L1 with
  | nil => rfl
  | cons l ls ih => simp [joinNLd, ih]

theorem joinNLd_shift (L : List (List Char)) (t : List Char) :
    joinNLd L t = joinNLd L [] ++ t := by
  induction L with
  | nil => rfl
  | cons l ls ih =>
    simp only [joinNLd]
    rw [ih]
    simp

theorem splitOnChar_ne_nil (c : Char) (l : List Char) : splitOnChar c l ≠ [] := by
  cases l with
  | nil => simp [splitOnChar]
  | cons x xs =>
    simp only [splitOnChar]
    rcases h : splitOnChar c xs with _ | ⟨y, ys⟩
    · simp
    · by_cases hx : x = c <;> simp [hx]

theorem splitOnChar_line {c : Char} {l : List Char} (h : c ∉ l) (rest : List Char) :
    splitOnChar c (l ++ c :: rest) = l :: splitOnChar c rest := by
  induction l with
  | nil =>
    simp only [List.nil_append, splitOnChar]
    rcases hs : splitOnChar c rest with _ | ⟨y, ys⟩
    · exact absurd hs (splitOnChar_ne_nil c rest)
    · simp
  | cons x xs ih =>
    have hx : x ≠ c := fun he => h (he ▸ List.mem_cons_self x xs)
    have hxs : c ∉ xs := fun hm => h (List.mem_cons_of_mem x hm)
    simp only [List.cons_append, splitOnChar, List.append_eq, ih hxs]
    simp [hx]

theorem splitOnChar_single {c : Char} {l : List Char} (h : c ∉ l) :
    splitOnChar c l = [l] := by
  induction l with
  | nil => rfl
  | cons x xs ih =>
    have hx : x ≠ c := fun he => h (he ▸ List.mem_cons_self x xs)
    have hxs : c ∉ xs := fun hm => h (List.mem_cons_of_mem x hm)
    simp only [splitOnChar, ih hxs]
    simp [hx]

/-- Splitting a newline-joined block of newline-free lines recovers the lines. -/
theorem splitOnChar_joinNLd {L : List (List Char)} (h : ∀ l ∈ L, '\n' ∉ l)
    (t : List Char) :
    splitOnChar '\n' (joinNLd L t) = L ++ splitOnChar '\n' t := by
  induction L with
  | nil => rfl
  | cons l ls ih =>
    have h1 : '\n' ∉ l := h l (List.mem_cons_self l ls)
    have h2 : ∀ x ∈ ls, '\n' ∉ x := fun x hx => h x (List.mem_cons_of_mem l hx)
    simp only [joinNLd, splitOnChar_line h1, ih h2, List.cons_append]

theorem sepByNL_data (L : List String) (x : String) :
    (sepByNL (L ++ [x])).data = joinNLd (L.map String.data) x.data := by
  induction L with
  | nil => rfl
  | cons l ls ih =>
    cases ls with
    | nil => simp [sepByNL, joinNLd]
    | cons m ms =>
      rw [List.cons_append] at ih
      simp only [List.cons_append, sepByNL, String.data_append, data_nl, List.map,
        List.append_eq]
      rw [ih]
      simp [joinNLd]

/-! ### Structure of the emitted blocks -/

theorem data_beginV_nl : "BEGIN:VEVENT\n".data = "BEGIN:VEVENT".data ++ ['\n'] := rfl

theorem data_endV_nl : "END:VEVENT\n".data = "END:VEVENT".data ++ ['\n'] := rfl

theorem data_headerStr :
    headerStr.data = "BEGIN:VCALENDAR".data ++ '\n' ::
      ("VERSION:2.0".data ++ '\n' :: ("PRODID:-//Calendar Photo Converter//EN".data ++
        '\n' :: [])) := rfl

theorem eventBlockStr_ok {parse : String → Option DateTime} {nowMs idx : Nat}
    {now dn ds de : DateTime} {ev : CalendarEvent}
    (hn : parse (toISOString now) = some dn)
    (hs : parse ev.start = some ds) (he : parse ev.«end» = some de) :
    eventBlockStr parse nowMs now idx ev =
      .ok ⟨joinNLd ((blockLines parse nowMs now idx ev).map String.data) []⟩ := by
  simp only [eventBlockStr, formatDateToICS, hn, hs, he, bind, Except.bind,
    blockLines, fmtD]
  refine congrArg Except.ok (String.ext ?_)
  by_cases hl : truthy ev.location <;> by_cases hd : truthy ev.description <;>
    simp [hl, hd, joinNLd, String.data_append, data_nl, data_beginV_nl, data_endV_nl,
      data_mk, List.append_assoc]

theorem eventBlockStr_err_start {parse : String → Option DateTime} {nowMs idx : Nat}
    {now dn : DateTime} {ev : CalendarEvent}
    (hn : parse (toISOString now) = some dn) (hs : parse ev.start = none) :
    eventBlockStr parse nowMs now idx ev = .error .invalidTimestamp := by
  simp [eventBlockStr, formatDateToICS, hn, hs, bind, Except.bind]

theorem eventBlockStr_err_end {parse : String → Option DateTime} {nowMs idx : Nat}
    {now dn ds : DateTime} {ev : CalendarEvent}
    (hn : parse (toISOString now) = some dn)
    (hs : parse ev.start = some ds) (he : parse ev.«end» = none) :
    eventBlockStr parse nowMs now idx ev = .error .invalidTimestamp := by
  simp [eventBlockStr, formatDateToICS, hn, hs, he, bind, Except.bind]

theorem genBody_ok {parse : String → Option DateTime} {nowMs : Nat}
    {now dn : DateTime} (hn : parse (toISOString now) = some dn) :
    ∀ (events : List CalendarEvent) (idx : Nat),
      (∀ ev ∈ events, (parse ev.start).isSome ∧ (parse ev.«end»).isSome) →
      genBody parse nowMs now events idx =
        .ok ⟨joinNLd ((emitLines parse nowMs now events idx).map String.data) []⟩
  | [], _, _ => by simp [genBody, emitLines, joinNLd]
  | ev :: rest, idx, hall => by
    obtain ⟨h1, h2⟩ := hall ev (List.mem_cons_self ev rest)
    obtain ⟨ds, hs⟩ := Option.isSome_iff_exists.mp h1
    obtain ⟨de, he⟩ := Option.isSome_iff_exists.mp h2
    have ih := @genBody_ok parse nowMs now dn hn rest (idx + 1)
      (fun e hm => hall e (List.mem_cons_of_mem ev hm))
    simp only [genBody, eventBlockStr_ok hn hs he, ih, bind, Except.bind, emitLines]
    refine congrArg Except.ok (String.ext ?_)
    rw [List.map_append, joinNLd_append]
    simp [String.data_append, data_mk, ← joinNLd_shift]

theorem generateICS_ok {parse : String → Option DateTime} {nowMs : Nat}
    {now dn : DateTime} {events : List CalendarEvent}
    (hn : parse (toISOString now) = some dn)
    (hall : ∀ ev ∈ events, (parse ev.start).isSome ∧ (parse ev.«end»).isSome) :
    generateICS parse events nowMs now =
      .ok ⟨joinNLd ((headerLines ++ emitLines parse nowMs now events 0).map String.data)
        "END:VCALENDAR".data⟩ := by
  simp only [generateICS, genBody_ok hn events 0 hall, bind, Except.bind]
  refine congrArg Except.ok (String.ext ?_)
  rw [List.map_append, joinNLd_append]
  simp [String.data_append, data_mk, data_headerStr, headerLines, joinNLd,
    List.append_assoc, ← joinNLd_shift]

theorem genBody_err_iff {parse : String → Option DateTime} {nowMs : Nat}
    {now dn : DateTime} (hn : parse (toISOString now) = some dn) :
    ∀ (events : List CalendarEvent) (idx : Nat),
      genBody parse nowMs now events idx = .error .invalidTimestamp ↔
        ∃ ev ∈ events, parse ev.start = none ∨ parse ev.«end» = none
  | [], _ => by simp [genBody]
  | ev :: rest, idx => by
    rcases hs : parse ev.start with _ | ds
    · simp only [genBody, eventBlockStr_err_start hn hs, bind, Except.bind]
      exact ⟨fun _ => ⟨ev, List.mem_cons_self ev rest, Or.inl hs⟩, fun _ => trivial⟩
    · rcases he : parse ev.«end» with _ | de
      · simp only [genBody, eventBlockStr_err_end hn hs he, bind, Except.bind]
        exact ⟨fun _ => ⟨ev, List.mem_cons_self ev rest, Or.inr he⟩, fun _ => trivial⟩
      · have ih := @genBody_err_iff parse nowMs now dn hn rest (idx + 1)
        simp only [genBody, eventBlockStr_ok hn hs he, bind, Except.bind]
        constructor
        · intro h
          rcases hr : genBody parse nowMs now rest (idx + 1) with e | b
          · obtain ⟨e', hm, hbad⟩ := ih.mp (by cases e; exact hr)
            exact ⟨e', List.mem_cons_of_mem ev hm, hbad⟩
          · rw [hr] at h
            cases h
        · rintro ⟨e', hm, hbad⟩
          rcases List.mem_cons.mp hm with rfl | hm'
          · rcases hbad with hbad | hbad
            · rw [hs] at hbad
              cases hbad
            · rw [he] at hbad
              cases hbad
          · rcases hr : genBody parse nowMs now rest (idx + 1) with e | b
            · cases e
              rfl
            · exact absurd (ih.mpr ⟨e', hm', hbad⟩) (by rw [hr]; simp)

theorem generateICS_err_iff {parse : String → Option DateTime} {nowMs : Nat}
    {now dn : DateTime} {events : List CalendarEvent}
    (hn : parse (toISOString now) = some dn) :
    generateICS parse events nowMs now = .error .invalidTimestamp ↔
      ∃ ev ∈ events, parse ev.start = none ∨ parse ev.«end» = none := by
  rw [← genBody_err_iff hn events 0]
  rcases hr : genBody parse nowMs now events 0 with e | b
  · cases e
    simp [generateICS, hr, bind, Except.bind]
  · simp [generateICS, hr, bind, Except.bind]


/-! ### Newline-freedom of emitted lines, and the line structure of the output -/

theorem fmtD_noNL (parse : String → Option DateTime) (s : String) :
    '\n' ∉ (fmtD parse s).data := by
  unfold fmtD
  rcases parse s with _ | d
  · decide
  · exact stripISO_noNL d

theorem uidLine_noNL (nowMs idx : Nat) : '\n' ∉ (uidLine nowMs idx).data := by
  intro hc
  simp only [uidLine, String.data_append, List.mem_append] at hc
  rcases hc with (((h | h) | h) | h) | h
  · exact absurd h (by decide)
  · exact repr_noNL nowMs h
  · exact absurd h (by decide)
  · exact repr_noNL idx h
  · exact absurd h (by decide)

theorem noNL_pre_append {p v : String} (hp : '\n' ∉ p.data) (hv : '\n' ∉ v.data) :
    '\n' ∉ (p ++ v).data := by
  intro hc
  rcases List.mem_append.mp (by simpa [String.data_append] using hc) with h | h
  · exact hp h
  · exact hv h

/-- A truthy optional field is `some` of its non-empty value. -/
theorem truthy_some {o : Option String} (h : truthy o = true) :
    o = some (o.getD "") := by
  cases o with
  | none => cases h
  | some s => rfl

/-- Fields of `ev` that end up verbatim inside emitted lines are newline-free. -/
def cleanEv (ev : CalendarEvent) : Prop :=
  '\n' ∉ ev.title.data ∧ '\n' ∉ (ev.location.getD "").data ∧
    '\n' ∉ (ev.description.getD "").data

instance cleanEv_decidable (ev : CalendarEvent) : Decidable (cleanEv ev) :=
  inferInstanceAs (Decidable (_ ∧ _ ∧ _))

theorem blockLines_noNL {parse : String → Option DateTime} {nowMs idx : Nat}
    {now : DateTime} {ev : CalendarEvent} (hc : cleanEv ev) :
    ∀ l ∈ blockLines parse nowMs now idx ev, '\n' ∉ l.data := by
  obtain ⟨hT, hL, hD⟩ := hc
  intro l hl
  unfold blockLines at hl
  rcases List.mem_append.mp hl with h | h
  · rcases List.mem_append.mp h with h | h
    · rcases List.mem_append.mp h with h | h
      · simp only [List.mem_cons, List.not_mem_nil, or_false] at h
        rcases h with rfl | rfl | rfl | rfl | rfl | rfl
        · decide
        · exact uidLine_noNL nowMs idx
        · exact noNL_pre_append (by decide) (fmtD_noNL parse (toISOString now))
        · exact noNL_pre_append (by decide) (fmtD_noNL parse ev.start)
        · exact noNL_pre_append (by decide) (fmtD_noNL parse ev.«end»)
        · exact noNL_pre_append (by decide) hT
      · rcases hloc : truthy ev.location with _ | _ <;> rw [hloc] at h
        · simp at h
        · simp only [if_true, List.mem_singleton] at h
          subst h
          exact noNL_pre_append (by decide) hL
    · rcases hdesc : truthy ev.description with _ | _ <;> rw [hdesc] at h
      · simp at h
      · simp only [if_true, List.mem_singleton] at h
        subst h
        exact noNL_pre_append (by decide) hD
  · simp only [List.mem_singleton] at h
    subst h
    decide

theorem emitLines_noNL {parse : String → Option DateTime} {nowMs : Nat}
    {now : DateTime} :
    ∀ (events : List CalendarEvent) (idx : Nat), (∀ ev ∈ events, cleanEv ev) →
      ∀ l ∈ emitLines parse nowMs now events idx, '\n' ∉ l.data
  | [], _, _ => by simp [emitLines]
  | ev :: rest, idx, hall => by
    intro l hl
    rw [emitLines] at hl
    rcases List.mem_append.mp hl with h | h
    · exact blockLines_noNL (hall ev (List.mem_cons_self ev rest)) l h
    · exact emitLines_noNL rest (idx + 1)
        (fun e hm => hall e (List.mem_cons_of_mem ev hm)) l h

/-- Master structural theorem: on clean, fully parseable input the generated
document splits at newlines into exactly the header lines, the block lines of
each event in input order, and the final `END:VCALENDAR`. -/
theorem docLines_generateICS {parse : String → Option DateTime} {nowMs : Nat}
    {now dn : DateTime} {events : List CalendarEvent} {out : String}
    (hn : parse (toISOString now) = some dn)
    (hall : ∀ ev ∈ events, (parse ev.start).isSome ∧ (parse ev.«end»).isSome)
    (hclean : ∀ ev ∈ events, cleanEv ev)
    (hout : generateICS parse events nowMs now = .ok out) :
    docLines out =
      headerLines ++ emitLines parse nowMs now events 0 ++ ["END:VCALENDAR"] := by
  rw [generateICS_ok hn hall] at hout
  injection hout with hout
  subst hout
  have hlines : ∀ ld ∈ (headerLines ++ emitLines parse nowMs now events 0).map
      String.data, '\n' ∉ ld := by
    intro ld hld
    obtain ⟨l, hl, rfl⟩ := List.mem_map.mp hld
    rcases List.mem_append.mp hl with h | h
    · have hh : l = "BEGIN:VCALENDAR" ∨ l = "VERSION:2.0" ∨
          l = "PRODID:-//Calendar Photo Converter//EN" := by
        simpa [headerLines] using h
      rcases hh with rfl | rfl | rfl <;> decide
    · exact emitLines_noNL events 0 hclean l h
  unfold docLines
  rw [data_mk, splitOnChar_joinNLd hlines,
    splitOnChar_single (by decide : '\n' ∉ "END:VCALENDAR".data)]
  rw [List.map_append, List.map_map]
  have hid : ((fun l : List Char => (⟨l⟩ : String)) ∘ String.data) = id :=
    funext fun s => mk_data s
  rw [hid, List.map_id]
  simp [mk_data]

/-! ### Counting the block delimiters -/

theorem ne_of_head {s t : String} {a b : Char}
    (hs : s.data.head? = some a) (ht : t.data.head? = some b) (hab : a ≠ b) :
    s ≠ t := by
  intro he
  rw [he, ht] at hs
  exact hab (Option.some.inj hs).symm

theorem blockLines_count_beginV (parse : String → Option DateTime)
    (nowMs idx : Nat) (now : DateTime) (ev : CalendarEvent) :
    (blockLines parse nowMs now idx ev).count "BEGIN:VEVENT" = 1 := by
  have hu : (uidLine nowMs idx == "BEGIN:VEVENT") = false :=
    beq_eq_false_iff_ne.mpr (ne_of_head rfl rfl (by decide))
  have h1 : ("DTSTAMP:" ++ fmtD parse (toISOString now) == "BEGIN:VEVENT") = false :=
    beq_eq_false_iff_ne.mpr (ne_of_head rfl rfl (by decide))
  have h2 : ("DTSTART:" ++ fmtD parse ev.start == "BEGIN:VEVENT") = false :=
    beq_eq_false_iff_ne.mpr (ne_of_head rfl rfl (by decide))
  have h3 : ("DTEND:" ++ fmtD parse ev.«end» == "BEGIN:VEVENT") = false :=
    beq_eq_false_iff_ne.mpr (ne_of_head rfl rfl (by decide))
  have h4 : ("SUMMARY:" ++ ev.title == "BEGIN:VEVENT") = false :=
    beq_eq_false_iff_ne.mpr (ne_of_head rfl rfl (by decide))
  have h5 : ("LOCATION:" ++ ev.location.getD "" == "BEGIN:VEVENT") = false :=
    beq_eq_false_iff_ne.mpr (ne_of_head rfl rfl (by decide))
  have h6 : ("DESCRIPTION:" ++ ev.description.getD "" == "BEGIN:VEVENT") = false :=
    beq_eq_false_iff_ne.mpr (ne_of_head rfl rfl (by decide))
  rcases hl : truthy ev.location with _ | _ <;>
    rcases hd : truthy ev.description with _ | _ <;>
      simp [blockLines, hl, hd, List.count_append, List.count_cons, List.count_nil,
        hu, h1, h2, h3, h4, h5, h6]

theorem blockLines_count_endV (parse : String → Option DateTime)
    (nowMs idx : Nat) (now : DateTime) (ev : CalendarEvent) :
    (blockLines parse nowMs now idx ev).count "END:VEVENT" = 1 := by
  have hu : (uidLine nowMs idx == "END:VEVENT") = false :=
    beq_eq_false_iff_ne.mpr (ne_of_head rfl rfl (by decide))
  have h1 : ("DTSTAMP:" ++ fmtD parse (toISOString now) == "END:VEVENT") = false :=
    beq_eq_false_iff_ne.mpr (ne_of_head rfl rfl (by decide))
  have h2 : ("DTSTART:" ++ fmtD parse ev.start == "END:VEVENT") = false :=
    beq_eq_false_iff_ne.mpr (ne_of_head rfl rfl (by decide))
  have h3 : ("DTEND:" ++ fmtD parse ev.«end» == "END:VEVENT") = false :=
    beq_eq_false_iff_ne.mpr (ne_of_head rfl rfl (by decide))
  have h4 : ("SUMMARY:" ++ ev.title == "END:VEVENT") = false :=
    beq_eq_false_iff_ne.mpr (ne_of_head rfl rfl (by decide))
  have h5 : ("LOCATION:" ++ ev.location.getD "" == "END:VEVENT") = false :=
    beq_eq_false_iff_ne.mpr (ne_of_head rfl rfl (by decide))
  have h6 : ("DESCRIPTION:" ++ ev.description.getD "" == "END:VEVENT") = false :=
    beq_eq_false_iff_ne.mpr (ne_of_head rfl rfl (by decide))
  rcases hl : truthy ev.location with _ | _ <;>
    rcases hd : truthy ev.description with _ | _ <;>
      simp [blockLines, hl, hd, List.count_append, List.count_cons, List.count_nil,
        hu, h1, h2, h3, h4, h5, h6]

theorem emitLines_count_beginV (parse : String → Option DateTime)
    (nowMs : Nat) (now : DateTime) :
    ∀ (events : List CalendarEvent) (idx : Nat),
      (emitLines parse nowMs now events idx).count "BEGIN:VEVENT" = events.length
  | [], _ => rfl
  | ev :: rest, idx => by
    rw [emitLines, List.count_append, blockLines_count_beginV,
      emitLines_count_beginV parse nowMs now rest (idx + 1)]
    simp [Nat.add_comm]

theorem emitLines_count_endV (parse : String → Option DateTime)
    (nowMs : Nat) (now : DateTime) :
    ∀ (events : List CalendarEvent) (idx : Nat),
      (emitLines parse nowMs now events idx).count "END:VEVENT" = events.length
  | [], _ => rfl
  | ev :: rest, idx => by
    rw [emitLines, List.count_append, blockLines_count_endV,
      emitLines_count_endV parse nowMs now rest (idx + 1)]
    simp [Nat.add_comm]

theorem generateICS_shape {parse : String → Option DateTime} {nowMs : Nat}
    {now : DateTime} {events : List CalendarEvent} {out : String}
    (hout : generateICS parse events nowMs now = .ok out) :
    ∃ body, out = headerStr ++ body ++ "END:VCALENDAR" := by
  unfold generateICS at hout
  rcases hr : genBody parse nowMs now events 0 with e | b <;> rw [hr] at hout
  · cases hout
  · exact ⟨b, (Except.ok.inj hout).symm⟩

/-! ### Running the minimal decoder over the generated lines -/

theorem dropPre_self_append : ∀ (p t : List Char), dropPre p (p ++ t) = some t
  | [], _ => rfl
  | c :: cs, t => by simp [dropPre, dropPre_self_append cs t]

theorem data_beginV : "BEGIN:VEVENT".data =
    ['B', 'E', 'G', 'I', 'N', ':', 'V', 'E', 'V', 'E', 'N', 'T'] := rfl

theorem data_endV : "END:VEVENT".data =
    ['E', 'N', 'D', ':', 'V', 'E', 'V', 'E', 'N', 'T'] := rfl

theorem data_summaryP : "SUMMARY:".data =
    ['S', 'U', 'M', 'M', 'A', 'R', 'Y', ':'] := rfl

theorem data_dtstartP : "DTSTART:".data =
    ['D', 'T', 'S', 'T', 'A', 'R', 'T', ':'] := rfl

theorem data_dtendP : "DTEND:".data = ['D', 'T', 'E', 'N', 'D', ':'] := rfl

theorem data_locationP : "LOCATION:".data =
    ['L', 'O', 'C', 'A', 'T', 'I', 'O', 'N', ':'] := rfl

theorem data_descriptionP : "DESCRIPTION:".data =
    ['D', 'E', 'S', 'C', 'R', 'I', 'P', 'T', 'I', 'O', 'N', ':'] := rfl

theorem decodeLine_beginV (st : DecodeState) :
    decodeLine st ['B', 'E', 'G', 'I', 'N', ':', 'V', 'E', 'V', 'E', 'N', 'T'] =
      ⟨some blankEv, st.acc⟩ := by
  simp +decide [decodeLine, data_beginV]

theorem decodeLine_endV (ev : CalendarEvent) (acc : List CalendarEvent) :
    decodeLine ⟨some ev, acc⟩ ['E', 'N', 'D', ':', 'V', 'E', 'V', 'E', 'N', 'T'] =
      ⟨none, acc ++ [ev]⟩ := by
  simp +decide [decodeLine, data_beginV, data_endV]

theorem decodeLine_skip_none (l : List Char)
    (h1 : l ≠ "BEGIN:VEVENT".data)
    (h2 : l ≠ "END:VEVENT".data) (acc : List CalendarEvent) :
    decodeLine ⟨none, acc⟩ l = ⟨none, acc⟩ := by
  simp [decodeLine, h1, h2]

theorem decodeLine_uid (ev : CalendarEvent) (acc : List CalendarEvent)
    (t : List Char) :
    decodeLine ⟨some ev, acc⟩ ('U' :: 'I' :: 'D' :: ':' :: t) = ⟨some ev, acc⟩ := by
  simp +decide [decodeLine, data_beginV, data_endV, data_summaryP, data_dtstartP,
    data_dtendP, data_locationP, data_descriptionP, dropPre]

theorem decodeLine_dtstamp (ev : CalendarEvent) (acc : List CalendarEvent)
    (t : List Char) :
    decodeLine ⟨some ev, acc⟩
        ('D' :: 'T' :: 'S' :: 'T' :: 'A' :: 'M' :: 'P' :: ':' :: t) =
      ⟨some ev, acc⟩ := by
  simp +decide [decodeLine, data_beginV, data_endV, data_summaryP, data_dtstartP,
    data_dtendP, data_locationP, data_descriptionP, dropPre]

theorem decodeLine_dtstart (ev : CalendarEvent) (acc : List CalendarEvent)
    (t : List Char) :
    decodeLine ⟨some ev, acc⟩
        ('D' :: 'T' :: 'S' :: 'T' :: 'A' :: 'R' :: 'T' :: ':' :: t) =
      ⟨some { ev with start := ⟨t⟩ }, acc⟩ := by
  simp +decide [decodeLine, data_beginV, data_endV, data_summaryP, data_dtstartP,
    data_dtendP, data_locationP, data_descriptionP, dropPre]

theorem decodeLine_dtend (ev : CalendarEvent) (acc : List CalendarEvent)
    (t : List Char) :
    decodeLine ⟨some ev, acc⟩ ('D' :: 'T' :: 'E' :: 'N' :: 'D' :: ':' :: t) =
      ⟨some { ev with «end» := ⟨t⟩ }, acc⟩ := by
  simp +decide [decodeLine, data_beginV, data_endV, data_summaryP, data_dtstartP,
    data_dtendP, data_locationP, data_descriptionP, dropPre]

theorem decodeLine_summary (ev : CalendarEvent) (acc : List CalendarEvent)
    (t : List Char) :
    decodeLine ⟨some ev, acc⟩
        ('S' :: 'U' :: 'M' :: 'M' :: 'A' :: 'R' :: 'Y' :: ':' :: t) =
      ⟨some { ev with title := ⟨t⟩ }, acc⟩ := by
  simp +decide [decodeLine, data_beginV, data_endV, data_summaryP, data_dtstartP,
    data_dtendP, data_locationP, data_descriptionP, dropPre]

theorem decodeLine_location (ev : CalendarEvent) (acc : List CalendarEvent)
    (t : List Char) :
    decodeLine ⟨some ev, acc⟩
        ('L' :: 'O' :: 'C' :: 'A' :: 'T' :: 'I' :: 'O' :: 'N' :: ':' :: t) =
      ⟨some { ev with location := some ⟨t⟩ }, acc⟩ := by
  simp +decide [decodeLine, data_beginV, data_endV, data_summaryP, data_dtstartP,
    data_dtendP, data_locationP, data_descriptionP, dropPre]

theorem decodeLine_description (ev : CalendarEvent) (acc : List CalendarEvent)
    (t : List Char) :
    decodeLine ⟨some ev, acc⟩
        ('D' :: 'E' :: 'S' :: 'C' :: 'R' :: 'I' :: 'P' :: 'T' :: 'I' :: 'O' :: 'N' ::
          ':' :: t) =
      ⟨some { ev with description := some ⟨t⟩ }, acc⟩ := by
  simp +decide [decodeLine, data_beginV, data_endV, data_summaryP, data_dtstartP,
    data_dtendP, data_locationP, data_descriptionP, dropPre]

theorem decodeLine_uidLine (ev : CalendarEvent) (acc : List CalendarEvent)
    (nowMs idx : Nat) :
    decodeLine ⟨some ev, acc⟩ (uidLine nowMs idx).data = ⟨some ev, acc⟩ := by
  obtain ⟨t, ht⟩ : ∃ t, (uidLine nowMs idx).data = 'U' :: 'I' :: 'D' :: ':' :: t :=
    ⟨_, rfl⟩
  rw [ht]
  exact decodeLine_uid ev acc t

theorem decodeLine_dtstampLine (ev : CalendarEvent) (acc : List CalendarEvent)
    (v : String) :
    decodeLine ⟨some ev, acc⟩ ("DTSTAMP:" ++ v).data = ⟨some ev, acc⟩ := by
  have h : ("DTSTAMP:" ++ v).data =
      'D' :: 'T' :: 'S' :: 'T' :: 'A' :: 'M' :: 'P' :: ':' :: v.data := rfl
  rw [h]
  exact decodeLine_dtstamp ev acc v.data

theorem foldl_decode_blockLines {parse : String → Option DateTime}
    {nowMs idx : Nat} {now : DateTime} {ev : CalendarEvent}
    (hLoc : ev.location ≠ some "") (hDesc : ev.description ≠ some "")
    (acc : List CalendarEvent) :
    List.foldl decodeLine ⟨none, acc⟩
        ((blockLines parse nowMs now idx ev).map String.data) =
      ⟨none, acc ++ [normEvent parse ev]⟩ := by
  rcases hl : ev.location with _ | ls <;> rcases hd : ev.description with _ | ds
  · simp [blockLines, hl, hd, truthy, List.foldl, decodeLine_beginV,
      decodeLine_uidLine, decodeLine_dtstamp, decodeLine_dtstart,
      decodeLine_dtend, decodeLine_summary, decodeLine_endV, normEvent, blankEv,
      mk_data]
  · have hds : ds ≠ "" := fun h => hDesc (by rw [hd, h])
    simp [blockLines, hl, hd, hds, truthy, List.foldl, decodeLine_beginV,
      decodeLine_uidLine, decodeLine_dtstamp, decodeLine_dtstart,
      decodeLine_dtend, decodeLine_summary, decodeLine_description,
      decodeLine_endV, normEvent, blankEv, mk_data]
  · have hls : ls ≠ "" := fun h => hLoc (by rw [hl, h])
    simp [blockLines, hl, hd, hls, truthy, List.foldl, decodeLine_beginV,
      decodeLine_uidLine, decodeLine_dtstamp, decodeLine_dtstart,
      decodeLine_dtend, decodeLine_summary, decodeLine_location,
      decodeLine_endV, normEvent, blankEv, mk_data]
  · have hls : ls ≠ "" := fun h => hLoc (by rw [hl, h])
    have hds : ds ≠ "" := fun h => hDesc (by rw [hd, h])
    simp [blockLines, hl, hd, hls, hds, truthy, List.foldl, decodeLine_beginV,
      decodeLine_uidLine, decodeLine_dtstamp, decodeLine_dtstart,
      decodeLine_dtend, decodeLine_summary, decodeLine_location,
      decodeLine_description, decodeLine_endV, normEvent, blankEv, mk_data]

theorem splitLines_generateICS {parse : String → Option DateTime} {nowMs : Nat}
    {now dn : DateTime} {events : List CalendarEvent} {out : String}
    (hn : parse (toISOString now) = some dn)
    (hall : ∀ ev ∈ events, (parse ev.start).isSome ∧ (parse ev.«end»).isSome)
    (hclean : ∀ ev ∈ events, cleanEv ev)
    (hout : generateICS parse events nowMs now = .ok out) :
    splitOnChar '\n' out.data =
      (headerLines ++ emitLines parse nowMs now events 0).map String.data ++
        ["END:VCALENDAR".data] := by
  rw [generateICS_ok hn hall] at hout
  injection hout with hout
  subst hout
  have hlines : ∀ ld ∈ (headerLines ++ emitLines parse nowMs now events 0).map
      String.data, '\n' ∉ ld := by
    intro ld hld
    obtain ⟨l, hl, rfl⟩ := List.mem_map.mp hld
    rcases List.mem_append.mp hl with h | h
    · have hh : l = "BEGIN:VCALENDAR" ∨ l = "VERSION:2.0" ∨
          l = "PRODID:-//Calendar Photo Converter//EN" := by
        simpa [headerLines] using h
      rcases hh with rfl | rfl | rfl <;> decide
    · exact emitLines_noNL events 0 hclean l h
  rw [data_mk, splitOnChar_joinNLd hlines,
    splitOnChar_single (by decide : '\n' ∉ "END:VCALENDAR".data)]

theorem foldl_decode_emitLines {parse : String → Option DateTime} {nowMs : Nat}
    {now : DateTime} :
    ∀ (events : List CalendarEvent) (idx : Nat) (acc : List CalendarEvent),
      (∀ ev ∈ events, ev.location ≠ some "" ∧ ev.description ≠ some "") →
      List.foldl decodeLine ⟨none, acc⟩
          ((emitLines parse nowMs now events idx).map String.data) =
        ⟨none, acc ++ events.map (normEvent parse)⟩
  | [], _, acc, _ => by simp [emitLines]
  | ev :: rest, idx, acc, hopt => by
    obtain ⟨hLoc, hDesc⟩ := hopt ev (List.mem_cons_self ev rest)
    rw [emitLines, List.map_append, List.foldl_append,
      foldl_decode_blockLines hLoc hDesc acc,
      foldl_decode_emitLines rest (idx + 1) (acc ++ [normEvent parse ev])
        (fun e hm => hopt e (List.mem_cons_of_mem ev hm))]
    simp

/-- Modelled from the spec: master round-trip theorem.  Decoding the generated
document with the minimal decoder yields the input events with their times
normalized to the UTC rendering. -/
theorem decodeICS_generateICS {parse : String → Option DateTime} {nowMs : Nat}
    {now dn : DateTime} {events : List CalendarEvent} {out : String}
    (hn : parse (toISOString now) = some dn)
    (hall : ∀ ev ∈ events, (parse ev.start).isSome ∧ (parse ev.«end»).isSome)
    (hclean : ∀ ev ∈ events, cleanEv ev)
    (hopt : ∀ ev ∈ events, ev.location ≠ some "" ∧ ev.description ≠ some "")
    (hout : generateICS parse events nowMs now = .ok out) :
    decodeICS out = events.map (normEvent parse) := by
  unfold decodeICS
  rw [splitLines_generateICS hn hall hclean hout, List.map_append,
    List.foldl_append, List.foldl_append]
  rw [show List.foldl decodeLine ⟨none, []⟩ (headerLines.map String.data) =
      (⟨none, []⟩ : DecodeState) from by decide]
  rw [foldl_decode_emitLines events 0 [] hopt]
  simp only [List.foldl, List.nil_append]
  rw [decodeLine_skip_none
    ['E', 'N', 'D', ':', 'V', 'C', 'A', 'L', 'E', 'N', 'D', 'A', 'R']
    (by decide) (by decide)]

/-! ### The Photo.jsx variant: downloading the stored model response -/

/-- One content block of the API response (`{ type, text? }`). -/
structure ContentBlock where
  type : String
  text : Option String
deriving DecidableEq

/-- The API response shape `Photo.jsx` reads (`data.content`). -/
structure APIResponse where
  content : List ContentBlock
deriving DecidableEq

/-- `data.content[0].text` — the string `Photo.jsx` stores into `icsData`
(undefined when `content` is empty or the first block has no text). -/
def extractICSText (r : APIResponse) : Option String :=
  r.content.head?.bind fun b => b.text

/-- A browser file download: suggested filename, MIME type, and content. -/
structure FileDownload where
  filename : String
  mime : String
  content : String
deriving DecidableEq

/-- Model of `new Blob(parts)`: the blob content is the concatenation of the
parts. -/
def blobContent (parts : List String) : String := String.join parts

/-- `downloadICS` from `Photo.jsx`: wraps `icsData` in `new Blob([icsData])`
with MIME type `text/calendar` and suggests the name `calendar.ics`. -/
def downloadICS (icsData : String) : FileDownload :=
  { filename := "calendar.ics", mime := "text/calendar",
    content := blobContent [icsData] }

/-! ### Concrete inputs used to evaluate the development -/

/-- A concrete generation instant: 2025-01-01T00:00:00.000Z. -/
def wnow : DateTime := ⟨2025, 1, 1, 0, 0, 0, 0⟩

/-- A concrete well-formed event. -/
def wev : CalendarEvent :=
  ⟨"Midterm", "2025-03-10T09:00:00", "2025-03-10T10:30:00", some "Room 5", none⟩

/-- A concrete event whose start string is not a parseable point in time. -/
def badEv : CalendarEvent :=
  ⟨"Broken", "garbage", "2025-03-10T10:00:00", none, none⟩

/-- A concrete event whose end precedes its start. -/
def revEv : CalendarEvent :=
  ⟨"Reversed", "2025-03-10T10:30:00", "2025-03-10T09:00:00", none, none⟩

/-! ### The claims -/

/-- C2: for every event whose start/end (and the generation instant) parse as
valid points in time with four-digit years, the `DTSTAMP`, `DTSTART` and
`DTEND` values the encoder emits all match `^\d{8}T\d{6}Z$` — the input time
rendered as `YYYYMMDDTHHMMSSZ`. -/
theorem claim2_timestamp_pattern {parse : String → Option DateTime}
    {nowMs idx : Nat} {now dn ds de : DateTime} {ev : CalendarEvent}
    (hn : parse (toISOString now) = some dn) (hs : parse ev.start = some ds)
    (he : parse ev.«end» = some de) (hyn : dn.year ≤ 9999) (hys : ds.year ≤ 9999)
    (hye : de.year ≤ 9999) :
    ∃ vn vs ve,
      formatDateToICS parse (toISOString now) = .ok vn ∧
      formatDateToICS parse ev.start = .ok vs ∧
      formatDateToICS parse ev.«end» = .ok ve ∧
      matchesTS vn = true ∧ matchesTS vs = true ∧ matchesTS ve = true ∧
      ("DTSTAMP:" ++ vn) ∈ blockLines parse nowMs now idx ev ∧
      ("DTSTART:" ++ vs) ∈ blockLines parse nowMs now idx ev ∧
      ("DTEND:" ++ ve) ∈ blockLines parse nowMs now idx ev := by
  refine ⟨stripISO dn, stripISO ds, stripISO de, formatDateToICS_ok hn,
    formatDateToICS_ok hs, formatDateToICS_ok he, matchesTS_stripISO hyn,
    matchesTS_stripISO hys, matchesTS_stripISO hye, ?_, ?_, ?_⟩ <;>
    simp [blockLines, fmtD_eq hn, fmtD_eq hs, fmtD_eq he]

/-- C2 witness: the pattern theorem evaluated on a concrete event and
generation instant. -/
theorem claim2_witness :
    (parseISO (toISOString wnow) = some wnow ∧
      parseISO wev.start = some ⟨2025, 3, 10, 9, 0, 0, 0⟩ ∧
      parseISO wev.«end» = some ⟨2025, 3, 10, 10, 30, 0, 0⟩) ∧
    ∃ vn vs ve,
      formatDateToICS parseISO (toISOString wnow) = .ok vn ∧
      formatDateToICS parseISO wev.start = .ok vs ∧
      formatDateToICS parseISO wev.«end» = .ok ve ∧
      matchesTS vn = true ∧ matchesTS vs = true ∧ matchesTS ve = true ∧
      ("DTSTAMP:" ++ vn) ∈ blockLines parseISO 7 wnow 0 wev ∧
      ("DTSTART:" ++ vs) ∈ blockLines parseISO 7 wnow 0 wev ∧
      ("DTEND:" ++ ve) ∈ blockLines parseISO 7 wnow 0 wev :=
  ⟨⟨by decide, by decide, by decide⟩,
    @claim2_timestamp_pattern parseISO 7 0 wnow wnow ⟨2025, 3, 10, 9, 0, 0, 0⟩
      ⟨2025, 3, 10, 10, 30, 0, 0⟩ wev (by decide) (by decide) (by decide)
      (by decide) (by decide) (by decide)⟩

/-- C3: with a generation instant whose ISO rendering parses back, the encoder
fails with `InvalidTimestamp` exactly when some event start/end does not parse;
when every start/end parses it returns normally — in particular `end < start`
is not validated. -/
theorem claim3_error_iff {parse : String → Option DateTime} {nowMs : Nat}
    {now dn : DateTime} {events : List CalendarEvent}
    (hn : parse (toISOString now) = some dn) :
    (generateICS parse events nowMs now = .error .invalidTimestamp ↔
      ∃ ev ∈ events, parse ev.start = none ∨ parse ev.«end» = none) ∧
    ((∀ ev ∈ events, (parse ev.start).isSome ∧ (parse ev.«end»).isSome) →
      ∃ out, generateICS parse events nowMs now = .ok out) :=
  ⟨generateICS_err_iff hn, fun hall => ⟨_, generateICS_ok hn hall⟩⟩

/-- C3 witness: an unparseable start makes generation fail, and an event whose
end precedes its start is still encoded without error. -/
theorem claim3_witness :
    (parseISO (toISOString wnow) = some wnow) ∧
    ((generateICS parseISO [badEv] 5 wnow = .error .invalidTimestamp ↔
        ∃ ev ∈ [badEv], parseISO ev.start = none ∨ parseISO ev.«end» = none) ∧
      ((∀ ev ∈ [badEv], (parseISO ev.start).isSome ∧ (parseISO ev.«end»).isSome) →
        ∃ out, generateICS parseISO [badEv] 5 wnow = .ok out)) ∧
    ((generateICS parseISO [revEv] 5 wnow = .error .invalidTimestamp ↔
        ∃ ev ∈ [revEv], parseISO ev.start = none ∨ parseISO ev.«end» = none) ∧
      ((∀ ev ∈ [revEv], (parseISO ev.start).isSome ∧ (parseISO ev.«end»).isSome) →
        ∃ out, generateICS parseISO [revEv] 5 wnow = .ok out)) :=
  ⟨by decide, @claim3_error_iff parseISO 5 wnow wnow [badEv] (by decide),
    @claim3_error_iff parseISO 5 wnow wnow [revEv] (by decide)⟩

/-- C5: encoding the empty event sequence is not an error: the result is a
minimal valid document containing the `BEGIN:VCALENDAR` and `END:VCALENDAR`
lines and zero `VEVENT` lines, for every parser and clock reading. -/
theorem claim5_empty (parse : String → Option DateTime) (nowMs : Nat)
    (now : DateTime) :
    generateICS parse [] nowMs now = .ok
      "BEGIN:VCALENDAR\nVERSION:2.0\nPRODID:-//Calendar Photo Converter//EN\nEND:VCALENDAR" ∧
    (docLines
      "BEGIN:VCALENDAR\nVERSION:2.0\nPRODID:-//Calendar Photo Converter//EN\nEND:VCALENDAR").count
        "BEGIN:VEVENT" = 0 ∧
    (docLines
      "BEGIN:VCALENDAR\nVERSION:2.0\nPRODID:-//Calendar Photo Converter//EN\nEND:VCALENDAR").count
        "END:VEVENT" = 0 ∧
    "BEGIN:VCALENDAR" ∈ docLines
      "BEGIN:VCALENDAR\nVERSION:2.0\nPRODID:-//Calendar Photo Converter//EN\nEND:VCALENDAR" ∧
    "END:VCALENDAR" ∈ docLines
      "BEGIN:VCALENDAR\nVERSION:2.0\nPRODID:-//Calendar Photo Converter//EN\nEND:VCALENDAR" :=
  ⟨rfl, by decide, by decide, by decide, by decide⟩

/-- C7: the encoder is a pure, deterministic function of its inputs — the
parser environment, the event sequence and the two generation-clock readings;
equal inputs give identical output documents. -/
theorem claim7_deterministic (parse parse' : String → Option DateTime)
    (events events' : List CalendarEvent) (nowMs nowMs' : Nat)
    (now now' : DateTime) (hp : parse = parse') (he : events = events')
    (hm : nowMs = nowMs') (hw : now = now') :
    generateICS parse events nowMs now = generateICS parse' events' nowMs' now' := by
  subst hp
  subst he
  subst hm
  subst hw
  rfl

/-- C7 witness: determinism evaluated at concrete inputs. -/
theorem claim7_witness :
    generateICS parseISO [wev] 3 wnow = generateICS parseISO [wev] 3 wnow :=
  claim7_deterministic parseISO parseISO [wev] [wev] 3 3 wnow wnow rfl rfl rfl rfl

/-- C8: within one document the UID lines of distinct event positions are
pairwise distinct: the 0-based ordinal differs, so the rendered
`UID:<token>-<index>@calendar-converter` lines differ. -/
theorem uidLine_data (m k : Nat) : (uidLine m k).data =
    "UID:".data ++ ((Nat.repr m).data ++
      ('-' :: ((Nat.repr k).data ++ "@calendar-converter".data))) := by
  simp [uidLine, String.data_append, data_dash, List.append_assoc]

theorem claim8_uid_distinct (nowMs : Nat) {i j : Nat} (h : i ≠ j) :
    uidLine nowMs i ≠ uidLine nowMs j := by
  intro he
  apply h
  apply reprNat_inj
  have hd := congrArg String.data he
  rw [uidLine_data, uidLine_data] at hd
  have h1 := List.append_cancel_left hd
  have h2 := List.append_cancel_left h1
  injection h2 with _ h3
  exact String.ext (List.append_cancel_right h3)

/-- C8 witness: distinct positions yield distinct UID lines. -/
theorem claim8_witness : (0 ≠ 1) ∧ uidLine 99 0 ≠ uidLine 99 1 :=
  ⟨by decide, claim8_uid_distinct 99 (by decide)⟩

/-- C10: in the Photo.jsx variant the downloaded file is byte-for-byte the
stored model-response string: `downloadICS` wraps `icsData` in a blob without
any local generation, transformation or validation, for every value of
`icsData`, and `extractICSText` hands the first text block over verbatim. -/
theorem claim10_download_verbatim (icsData : String) (r : APIResponse)
    (b : ContentBlock) (t : String) (h1 : r.content.head? = some b)
    (h2 : b.text = some t) :
    (downloadICS icsData).content = icsData ∧
    (downloadICS icsData).filename = "calendar.ics" ∧
    (downloadICS icsData).mime = "text/calendar" ∧
    extractICSText r = some t ∧ (downloadICS t).content = t := by
  refine ⟨?_, rfl, rfl, by simp [extractICSText, h1, h2], ?_⟩ <;>
  · show String.join _ = _
    apply String.ext
    simp [String.join, String.data_append]

/-- C10 witness: the verbatim-download theorem evaluated on a concrete API
response holding one text block. -/
theorem claim10_witness :
    ((⟨[⟨"text", some "BEGIN:VCALENDAR\nEND:VCALENDAR"⟩]⟩ :
        APIResponse).content.head? =
      some ⟨"text", some "BEGIN:VCALENDAR\nEND:VCALENDAR"⟩) ∧
    ((⟨"text", some "BEGIN:VCALENDAR\nEND:VCALENDAR"⟩ : ContentBlock).text =
      some "BEGIN:VCALENDAR\nEND:VCALENDAR") ∧
    ((downloadICS "data").content = "data" ∧
      (downloadICS "data").filename = "calendar.ics" ∧
      (downloadICS "data").mime = "text/calendar" ∧
      extractICSText ⟨[⟨"text", some "BEGIN:VCALENDAR\nEND:VCALENDAR"⟩]⟩ =
        some "BEGIN:VCALENDAR\nEND:VCALENDAR" ∧
      (downloadICS "BEGIN:VCALENDAR\nEND:VCALENDAR").content =
        "BEGIN:VCALENDAR\nEND:VCALENDAR") :=
  ⟨rfl, rfl, claim10_download_verbatim "data"
    ⟨[⟨"text", some "BEGIN:VCALENDAR\nEND:VCALENDAR"⟩]⟩
    ⟨"text", some "BEGIN:VCALENDAR\nEND:VCALENDAR"⟩
    "BEGIN:VCALENDAR\nEND:VCALENDAR" rfl rfl⟩

/-- C1 (amended; see the counterexample): for events whose title, location and
description contain no newline, the document starts with the `BEGIN:VCALENDAR`
header block, ends with `END:VCALENDAR`, and its lines contain exactly one
`BEGIN:VEVENT` and one `END:VEVENT` per input event; the full line structure is
the header, then the block of each event in input order, then the footer. -/
theorem claim1_structure {parse : String → Option DateTime} {nowMs : Nat}
    {now dn : DateTime} {events : List CalendarEvent}
    (hn : parse (toISOString now) = some dn)
    (hall : ∀ ev ∈ events, (parse ev.start).isSome ∧ (parse ev.«end»).isSome)
    (hclean : ∀ ev ∈ events, cleanEv ev) :
    ∃ out, generateICS parse events nowMs now = .ok out ∧
      (∃ r, out = "BEGIN:VCALENDAR\n" ++ r) ∧
      (∃ p, out = p ++ "END:VCALENDAR") ∧
      docLines out = headerLines ++ emitLines parse nowMs now events 0 ++
        ["END:VCALENDAR"] ∧
      (docLines out).count "BEGIN:VEVENT" = events.length ∧
      (docLines out).count "END:VEVENT" = events.length := by
  have hout := @generateICS_ok parse nowMs now dn events hn hall
  have hdl := docLines_generateICS hn hall hclean hout
  refine ⟨_, hout, ?_, ?_, hdl, ?_, ?_⟩
  · obtain ⟨body, hb⟩ := generateICS_shape hout
    refine ⟨"VERSION:2.0\nPRODID:-//Calendar Photo Converter//EN\n" ++ body ++
      "END:VCALENDAR", ?_⟩
    rw [hb]
    rfl
  · obtain ⟨body, hb⟩ := generateICS_shape hout
    exact ⟨headerStr ++ body, by rw [hb]⟩
  · rw [hdl, List.count_append, List.count_append,
      emitLines_count_beginV parse nowMs now events 0,
      show headerLines.count "BEGIN:VEVENT" = 0 from by decide,
      show (["END:VCALENDAR"] : List String).count "BEGIN:VEVENT" = 0 from by decide]
    omega
  · rw [hdl, List.count_append, List.count_append,
      emitLines_count_endV parse nowMs now events 0,
      show headerLines.count "END:VEVENT" = 0 from by decide,
      show (["END:VCALENDAR"] : List String).count "END:VEVENT" = 0 from by decide]
    omega

/-- C1 witness: the structural theorem evaluated on one concrete event. -/
theorem claim1_witness :
    (parseISO (toISOString wnow) = some wnow) ∧
    ∃ out, generateICS parseISO [wev] 7 wnow = .ok out ∧
      (∃ r, out = "BEGIN:VCALENDAR\n" ++ r) ∧
      (∃ p, out = p ++ "END:VCALENDAR") ∧
      docLines out = headerLines ++ emitLines parseISO 7 wnow [wev] 0 ++
        ["END:VCALENDAR"] ∧
      (docLines out).count "BEGIN:VEVENT" = [wev].length ∧
      (docLines out).count "END:VEVENT" = [wev].length :=
  ⟨by decide, @claim1_structure parseISO 7 wnow wnow [wev] (by decide)
    (by decide) (by decide)⟩

set_option maxRecDepth 10000 in
/-- C1 counterexample: a title containing a newline followed by
`BEGIN:VEVENT` injects an extra `BEGIN:VEVENT` line, so a document generated
from one event contains two such lines — the claim fails for arbitrary
(unescaped) field values. -/
theorem claim1_counterexample :
    (generateICS parseISO
        [⟨"A\nBEGIN:VEVENT", "2025-03-10T09:00:00", "2025-03-10T10:00:00",
          none, none⟩] 0 wnow).toOption.map
      (fun out => (docLines out).count "BEGIN:VEVENT") = some 2 := by decide

/-- C9: the generated document is its line list joined by bare LF separators
(`sepByNL` inserts a single `"\n"` between lines and nothing else — no CRLF),
the last line is `END:VCALENDAR`, the final character is `R`, and no string
followed by a trailing `"\n"` equals the output. -/
theorem claim9_line_termination {parse : String → Option DateTime} {nowMs : Nat}
    {now dn : DateTime} {events : List CalendarEvent}
    (hn : parse (toISOString now) = some dn)
    (hall : ∀ ev ∈ events, (parse ev.start).isSome ∧ (parse ev.«end»).isSome) :
    ∃ out, generateICS parse events nowMs now = .ok out ∧
      out = sepByNL (headerLines ++ emitLines parse nowMs now events 0 ++
        ["END:VCALENDAR"]) ∧
      (headerLines ++ emitLines parse nowMs now events 0 ++
        ["END:VCALENDAR"]).getLast? = some "END:VCALENDAR" ∧
      out.data.getLast? = some 'R' ∧
      ∀ pre, out ≠ pre ++ "\n" := by
  have hout := @generateICS_ok parse nowMs now dn events hn hall
  refine ⟨_, hout, ?_, List.getLast?_concat _, ?_, ?_⟩
  · apply String.ext
    rw [sepByNL_data (headerLines ++ emitLines parse nowMs now events 0)
      "END:VCALENDAR"]
  · show (String.mk _).data.getLast? = some 'R'
    rw [data_mk, joinNLd_shift]
    simp [List.getLast?_append]
  · intro pre hpre
    have h1 : (String.mk (joinNLd ((headerLines ++
        emitLines parse nowMs now events 0).map String.data)
        "END:VCALENDAR".data)).data.getLast? = some 'R' := by
      rw [data_mk, joinNLd_shift]
      simp [List.getLast?_append]
    rw [hpre] at h1
    rw [String.data_append, data_nl, List.getLast?_concat] at h1
    cases h1

/-- C9 witness: the termination theorem evaluated on one concrete event. -/
theorem claim9_witness :
    (parseISO (toISOString wnow) = some wnow) ∧
    ∃ out, generateICS parseISO [wev] 7 wnow = .ok out ∧
      out = sepByNL (headerLines ++ emitLines parseISO 7 wnow [wev] 0 ++
        ["END:VCALENDAR"]) ∧
      (headerLines ++ emitLines parseISO 7 wnow [wev] 0 ++
        ["END:VCALENDAR"]).getLast? = some "END:VCALENDAR" ∧
      out.data.getLast? = some 'R' ∧
      ∀ pre, out ≠ pre ++ "\n" :=
  ⟨by decide, @claim9_line_termination parseISO 7 wnow wnow [wev] (by decide)
    (by decide)⟩

/-- C4 (amended; see the counterexample): for events with parseable
timestamps whose text fields contain no newline and whose optional fields are
absent or non-empty, the minimal decoder reconstructs the original events from
the generated document, with start/end normalized to their UTC rendering. -/
theorem claim4_roundtrip {parse : String → Option DateTime} {nowMs : Nat}
    {now dn : DateTime} {events : List CalendarEvent}
    (hn : parse (toISOString now) = some dn)
    (hall : ∀ ev ∈ events, (parse ev.start).isSome ∧ (parse ev.«end»).isSome)
    (hclean : ∀ ev ∈ events, cleanEv ev)
    (hopt : ∀ ev ∈ events, ev.location ≠ some "" ∧ ev.description ≠ some "") :
    ∃ out, generateICS parse events nowMs now = .ok out ∧
      decodeICS out = events.map (normEvent parse) := by
  have hout := @generateICS_ok parse nowMs now dn events hn hall
  exact ⟨_, hout, decodeICS_generateICS hn hall hclean hopt hout⟩

/-- C4 witness: the round-trip theorem evaluated on one concrete event. -/
theorem claim4_witness :
    (parseISO (toISOString wnow) = some wnow) ∧
    ∃ out, generateICS parseISO [wev] 7 wnow = .ok out ∧
      decodeICS out = [wev].map (normEvent parseISO) :=
  ⟨by decide, @claim4_roundtrip parseISO 7 wnow wnow [wev] (by decide) (by decide)
    (by decide) (by decide)⟩

set_option maxRecDepth 10000 in
/-- C4 counterexample: an event with `location = some ""` produces no
`LOCATION:` line, so the decoder reconstructs `location = none` — the original
`CalendarEvent` fields are not recovered, refuting the claim as universally
stated. -/
theorem claim4_counterexample :
    (⟨"T", "2025-03-10T09:00:00", "2025-03-10T10:00:00", some "", none⟩ :
      CalendarEvent).location = some "" ∧
    (generateICS parseISO
        [⟨"T", "2025-03-10T09:00:00", "2025-03-10T10:00:00", some "", none⟩]
        0 wnow).toOption.map
      (fun out => (decodeICS out).map fun e => e.location) = some [none] :=
  ⟨rfl, by decide⟩

/-- Whether a line carries the property prefix `p` (e.g. `LOCATION:`). -/
def hasPre (p l : String) : Bool := (dropPre p.data l.data).isSome

theorem hasPre_loc_uid (m k : Nat) : hasPre "LOCATION:" (uidLine m k) = false := by
  obtain ⟨t, ht⟩ : ∃ t, (uidLine m k).data = 'U' :: 'I' :: 'D' :: ':' :: t := ⟨_, rfl⟩
  simp [hasPre, ht, data_locationP, dropPre]

theorem hasPre_loc_dtstamp (v : String) :
    hasPre "LOCATION:" ("DTSTAMP:" ++ v) = false := by
  have h : ("DTSTAMP:" ++ v).data =
      'D' :: 'T' :: 'S' :: 'T' :: 'A' :: 'M' :: 'P' :: ':' :: v.data := rfl
  simp [hasPre, h, data_locationP, dropPre]

theorem hasPre_loc_dtstart (v : String) :
    hasPre "LOCATION:" ("DTSTART:" ++ v) = false := by
  have h : ("DTSTART:" ++ v).data =
      'D' :: 'T' :: 'S' :: 'T' :: 'A' :: 'R' :: 'T' :: ':' :: v.data := rfl
  simp [hasPre, h, data_locationP, dropPre]

theorem hasPre_loc_dtend (v : String) :
    hasPre "LOCATION:" ("DTEND:" ++ v) = false := by
  have h : ("DTEND:" ++ v).data = 'D' :: 'T' :: 'E' :: 'N' :: 'D' :: ':' :: v.data := rfl
  simp [hasPre, h, data_locationP, dropPre]

theorem hasPre_loc_summary (v : String) :
    hasPre "LOCATION:" ("SUMMARY:" ++ v) = false := by
  have h : ("SUMMARY:" ++ v).data =
      'S' :: 'U' :: 'M' :: 'M' :: 'A' :: 'R' :: 'Y' :: ':' :: v.data := rfl
  simp [hasPre, h, data_locationP, dropPre]

theorem hasPre_loc_description (v : String) :
    hasPre "LOCATION:" ("DESCRIPTION:" ++ v) = false := by
  have h : ("DESCRIPTION:" ++ v).data = 'D' :: 'E' :: 'S' :: 'C' :: 'R' :: 'I' ::
    'P' :: 'T' :: 'I' :: 'O' :: 'N' :: ':' :: v.data := rfl
  simp [hasPre, h, data_locationP, dropPre]

theorem hasPre_loc_location (v : String) :
    hasPre "LOCATION:" ("LOCATION:" ++ v) = true := by
  have h : ("LOCATION:" ++ v).data = "LOCATION:".data ++ v.data := rfl
  simp +decide [hasPre, h, dropPre]

theorem hasPre_desc_uid (m k : Nat) :
    hasPre "DESCRIPTION:" (uidLine m k) = false := by
  obtain ⟨t, ht⟩ : ∃ t, (uidLine m k).data = 'U' :: 'I' :: 'D' :: ':' :: t := ⟨_, rfl⟩
  simp [hasPre, ht, data_descriptionP, dropPre]

theorem hasPre_desc_dtstamp (v : String) :
    hasPre "DESCRIPTION:" ("DTSTAMP:" ++ v) = false := by
  have h : ("DTSTAMP:" ++ v).data =
      'D' :: 'T' :: 'S' :: 'T' :: 'A' :: 'M' :: 'P' :: ':' :: v.data := rfl
  simp [hasPre, h, data_descriptionP, dropPre]

theorem hasPre_desc_dtstart (v : String) :
    hasPre "DESCRIPTION:" ("DTSTART:" ++ v) = false := by
  have h : ("DTSTART:" ++ v).data =
      'D' :: 'T' :: 'S' :: 'T' :: 'A' :: 'R' :: 'T' :: ':' :: v.data := rfl
  simp [hasPre, h, data_descriptionP, dropPre]

theorem hasPre_desc_dtend (v : String) :
    hasPre "DESCRIPTION:" ("DTEND:" ++ v) = false := by
  have h : ("DTEND:" ++ v).data = 'D' :: 'T' :: 'E' :: 'N' :: 'D' :: ':' :: v.data := rfl
  simp [hasPre, h, data_descriptionP, dropPre]

theorem hasPre_desc_summary (v : String) :
    hasPre "DESCRIPTION:" ("SUMMARY:" ++ v) = false := by
  have h : ("SUMMARY:" ++ v).data =
      'S' :: 'U' :: 'M' :: 'M' :: 'A' :: 'R' :: 'Y' :: ':' :: v.data := rfl
  simp [hasPre, h, data_descriptionP, dropPre]

theorem hasPre_desc_location (v : String) :
    hasPre "DESCRIPTION:" ("LOCATION:" ++ v) = false := by
  have h : ("LOCATION:" ++ v).data = 'L' :: 'O' :: 'C' :: 'A' :: 'T' :: 'I' ::
    'O' :: 'N' :: ':' :: v.data := rfl
  simp [hasPre, h, data_descriptionP, dropPre]

theorem hasPre_desc_description (v : String) :
    hasPre "DESCRIPTION:" ("DESCRIPTION:" ++ v) = true := by
  have h : ("DESCRIPTION:" ++ v).data = "DESCRIPTION:".data ++ v.data := rfl
  simp +decide [hasPre, h, dropPre]

/-- C6: the encoder emits a `LOCATION:` line exactly when the location field
is present and non-empty (an absent or empty location yields no such line),
and likewise for `DESCRIPTION:`; the block it emits for the event is the
newline-join of its block lines. -/
theorem claim6_optional_fields {parse : String → Option DateTime}
    {nowMs idx : Nat} {now dn ds de : DateTime} {ev : CalendarEvent}
    (hn : parse (toISOString now) = some dn) (hs : parse ev.start = some ds)
    (he : parse ev.«end» = some de) :
    eventBlockStr parse nowMs now idx ev =
      .ok ⟨joinNLd ((blockLines parse nowMs now idx ev).map String.data) []⟩ ∧
    ((ev.location = none ∨ ev.location = some "") →
      (blockLines parse nowMs now idx ev).countP (hasPre "LOCATION:") = 0) ∧
    (∀ s, ev.location = some s → s ≠ "" →
      (blockLines parse nowMs now idx ev).countP (hasPre "LOCATION:") = 1) ∧
    ((ev.description = none ∨ ev.description = some "") →
      (blockLines parse nowMs now idx ev).countP (hasPre "DESCRIPTION:") = 0) ∧
    (∀ s, ev.description = some s → s ≠ "" →
      (blockLines parse nowMs now idx ev).countP (hasPre "DESCRIPTION:") = 1) := by
  refine ⟨eventBlockStr_ok hn hs he, ?_, ?_, ?_, ?_⟩
  · intro hlo
    have hlt : truthy ev.location = false := by
      rcases hlo with h | h <;> simp [truthy, h]
    rcases hdt : truthy ev.description with _ | _ <;>
      simp [blockLines, hlt, hdt, List.countP_append, List.countP_cons,
        hasPre_loc_uid, hasPre_loc_dtstamp, hasPre_loc_dtstart, hasPre_loc_dtend,
        hasPre_loc_summary, hasPre_loc_description, hasPre_loc_location,
        show hasPre "LOCATION:" "BEGIN:VEVENT" = false from by decide,
        show hasPre "LOCATION:" "END:VEVENT" = false from by decide]
  · intro sv hsl hne
    have hlt : truthy (some sv) = true := by simp [truthy, hne]
    rcases hdt : truthy ev.description with _ | _ <;>
      simp [blockLines, hsl, hlt, hdt, List.countP_append, List.countP_cons,
        hasPre_loc_uid, hasPre_loc_dtstamp, hasPre_loc_dtstart, hasPre_loc_dtend,
        hasPre_loc_summary, hasPre_loc_description, hasPre_loc_location,
        show hasPre "LOCATION:" "BEGIN:VEVENT" = false from by decide,
        show hasPre "LOCATION:" "END:VEVENT" = false from by decide]
  · intro hdo
    have hdt : truthy ev.description = false := by
      rcases hdo with h | h <;> simp [truthy, h]
    rcases hlt : truthy ev.location with _ | _ <;>
      simp [blockLines, hdt, hlt, List.countP_append, List.countP_cons,
        hasPre_desc_uid, hasPre_desc_dtstamp, hasPre_desc_dtstart,
        hasPre_desc_dtend, hasPre_desc_summary, hasPre_desc_description,
        hasPre_desc_location,
        show hasPre "DESCRIPTION:" "BEGIN:VEVENT" = false from by decide,
        show hasPre "DESCRIPTION:" "END:VEVENT" = false from by decide]
  · intro sv hsd hne
    have hdt : truthy (some sv) = true := by simp [truthy, hne]
    rcases hlt : truthy ev.location with _ | _ <;>
      simp [blockLines, hsd, hdt, hlt, List.countP_append, List.countP_cons,
        hasPre_desc_uid, hasPre_desc_dtstamp, hasPre_desc_dtstart,
        hasPre_desc_dtend, hasPre_desc_summary, hasPre_desc_description,
        hasPre_desc_location,
        show hasPre "DESCRIPTION:" "BEGIN:VEVENT" = false from by decide,
        show hasPre "DESCRIPTION:" "END:VEVENT" = false from by decide]

/-- C6 witness: the optional-field theorem evaluated on a concrete event with
a non-empty location and no description. -/
theorem claim6_witness :
    (parseISO (toISOString wnow) = some wnow ∧
      parseISO wev.start = some ⟨2025, 3, 10, 9, 0, 0, 0⟩ ∧
      parseISO wev.«end» = some ⟨2025, 3, 10, 10, 30, 0, 0⟩) ∧
    (eventBlockStr parseISO 7 wnow 0 wev =
      .ok ⟨joinNLd ((blockLines parseISO 7 wnow 0 wev).map String.data) []⟩ ∧
    ((wev.location = none ∨ wev.location = some "") →
      (blockLines parseISO 7 wnow 0 wev).countP (hasPre "LOCATION:") = 0) ∧
    (∀ s, wev.location = some s → s ≠ "" →
      (blockLines parseISO 7 wnow 0 wev).countP (hasPre "LOCATION:") = 1) ∧
    ((wev.description = none ∨ wev.description = some "") →
      (blockLines parseISO 7 wnow 0 wev).countP (hasPre "DESCRIPTION:") = 0) ∧
    (∀ s, wev.description = some s → s ≠ "" →
      (blockLines parseISO 7 wnow 0 wev).countP (hasPre "DESCRIPTION:") = 1)) :=
  ⟨⟨by decide, by decide, by decide⟩,
    @claim6_optional_fields parseISO 7 0 wnow wnow ⟨2025, 3, 10, 9, 0, 0, 0⟩
      ⟨2025, 3, 10, 10, 30, 0, 0⟩ wev (by decide) (by decide) (by decide)⟩

end ICS
